import Mathlib

/-!
Verification development for the EPUB-to-PDF conversion pipeline.

The source module parses a ZIP-packaged EPUB (container descriptor, OPF
manifest/spine, per-chapter XHTML) and lays the extracted content out into a
paginated letter-sized document.  The embedding below translates that module
into executable Lean definitions:

* the in-memory ZIP archive becomes an association list from entry path to
  entry text (JSZip exposes exactly a path-keyed lookup; binary payloads are
  carried as opaque strings and only ever handed to the image-dimension
  oracle);
* the regex scans of the source (`match`, `exec`, `replace`) become explicit
  character-list scanners that reproduce the leftmost-match, greedy and lazy
  semantics of the concrete regexes used;
* the two external library services with no local implementation -
  `jsPDF.splitTextToSize` (font-metric line wrapping) and
  `getImageDimensions` (asynchronous pixel-size decoding, which never
  rejects: its `onerror` path resolves a fixed 300x200 fallback) - are
  abstracted as oracle functions supplied in a configuration record;
* page-geometry arithmetic is carried out in `ℚ` (the source uses
  JavaScript numbers; every constant involved is small and exactly
  representable);
* `throw` sites become an `Except` error type; the `try`/`catch` that wraps
  image placement becomes total skip-on-failure code.

Fuel parameters (always instantiated with `length + 1`, which is sufficient
since every loop iteration consumes at least one character) keep all
scanners structurally recursive and kernel-reducible.
-/

set_option maxRecDepth 200000

set_option maxHeartbeats 2000000

namespace EpubPdf

/-- Characters matched by the regex class `\s` (the ASCII members; the
source's regexes only ever meet ASCII whitespace in the scanned markup). -/
def isJsWs (c : Char) : Bool :=
  c == ' ' || c == '\t' || c == '\n' || c == '\r' || c == Char.ofNat 11 || c == Char.ofNat 12

/-- Case-insensitive prefix test; `lit` is given in lowercase, mirroring the
`i` flag on the source's regexes. -/
def ciPrefix (lit cs : List Char) : Bool :=
  lit == (cs.take lit.length).map Char.toLower

/-- Global literal replacement (leftmost, non-overlapping), the semantics of
`String.prototype.replace` with a global literal pattern. -/
def replaceLit (lit rep : List Char) : Nat → List Char → List Char
  | 0, cs => cs
  | _ + 1, [] => []
  | fuel + 1, c :: rest =>
    if !lit.isEmpty && lit.isPrefixOf (c :: rest) then
      rep ++ replaceLit lit rep fuel ((c :: rest).drop lit.length)
    else c :: replaceLit lit rep fuel rest

/-- Global literal replacement on strings. -/
def strReplace (s : String) (lit rep : String) : String :=
  String.mk (replaceLit lit.data rep.data (s.data.length + 1) s.data)

/-- The whitespace set removed by `String.prototype.trim` (ASCII members
plus no-break space and the byte-order mark). -/
def isTrimWs (c : Char) : Bool :=
  isJsWs c || c == Char.ofNat 160 || c == Char.ofNat 65279

/-- `String.prototype.trim`: strip leading and trailing whitespace. -/
def jsTrim (s : String) : String :=
  String.mk (((s.data.dropWhile isTrimWs).reverse.dropWhile isTrimWs).reverse)

/-- `String.prototype.toLowerCase` (the scanned markup is ASCII). -/
def toLowerStr (s : String) : String :=
  String.mk (s.data.map Char.toLower)

/-- `String.prototype.split` on a dot separator (an empty string yields one
empty field, like the JavaScript builtin). -/
def splitDot : List Char → List (List Char)
  | [] => [[]]
  | c :: rest =>
    let r := splitDot rest
    if c == '.' then [] :: r else (c :: r.headD []) :: r.tail

/-- Leftmost index at which `lit` occurs case-insensitively, mirroring a lazy
`[\s\S]*?lit` regex search. -/
def findLitCI (lit : List Char) : List Char → Option Nat
  | [] => if ciPrefix lit [] then some 0 else none
  | c :: rest => if ciPrefix lit (c :: rest) then some 0 else (findLitCI lit rest).map (· + 1)

/-- Value of a hexadecimal digit, as accepted by percent-escapes. -/
def hexVal (c : Char) : Option Nat :=
  if c.isDigit then some (c.toNat - 48)
  else if 'A' ≤ c ∧ c ≤ 'F' then some (c.toNat - 55)
  else if 'a' ≤ c ∧ c ≤ 'f' then some (c.toNat - 87)
  else none

/-- Whether a byte is a UTF-8 continuation byte. -/
def utf8Cont (b : Nat) : Bool := 128 ≤ b && b ≤ 191

/-- Strict UTF-8 decoding of a byte sequence (continuation, surrogate and
overlong checks), as performed by `decodeURIComponent` on the bytes produced
by a run of percent-escapes; `none` models the thrown `URIError`. -/
def utf8Decode : List Nat → Option (List Char)
  | [] => some []
  | b :: rest =>
    if b < 128 then
      (utf8Decode rest).map (fun cs => Char.ofNat b :: cs)
    else if 194 ≤ b && b ≤ 223 then
      match rest with
      | b2 :: rest2 =>
        if utf8Cont b2 then
          (utf8Decode rest2).map (fun cs => Char.ofNat ((b - 192) * 64 + (b2 - 128)) :: cs)
        else none
      | [] => none
    else if 224 ≤ b && b ≤ 239 then
      match rest with
      | b2 :: b3 :: rest2 =>
        if (if b == 224 then 160 ≤ b2 && b2 ≤ 191
            else if b == 237 then 128 ≤ b2 && b2 ≤ 159
            else utf8Cont b2) && utf8Cont b3 then
          (utf8Decode rest2).map
            (fun cs => Char.ofNat ((b - 224) * 4096 + (b2 - 128) * 64 + (b3 - 128)) :: cs)
        else none
      | _ => none
    else if 240 ≤ b && b ≤ 244 then
      match rest with
      | b2 :: b3 :: b4 :: rest2 =>
        if (if b == 240 then 144 ≤ b2 && b2 ≤ 191
            else if b == 244 then 128 ≤ b2 && b2 ≤ 143
            else utf8Cont b2) && utf8Cont b3 && utf8Cont b4 then
          (utf8Decode rest2).map
            (fun cs =>
              Char.ofNat ((b - 240) * 262144 + (b2 - 128) * 4096 + (b3 - 128) * 64 + (b4 - 128)) :: cs)
        else none
      | _ => none
    else none

/-- The maximal leading run of percent-escapes, as bytes, together with the
remainder; `none` models a malformed escape (`URIError`). -/
def pctBytes : List Char → Option (List Nat × List Char)
  | '%' :: h1 :: h2 :: rest =>
    match hexVal h1, hexVal h2 with
    | some v1, some v2 =>
      match pctBytes rest with
      | some (bs, rem) => some ((v1 * 16 + v2) :: bs, rem)
      | none => none
    | _, _ => none
  | '%' :: _ => none
  | cs => some ([], cs)

/-- Worker for `decodeURIComponent`; the fuel is instantiated with
`length + 1`, enough because every step consumes at least one character. -/
def pctDecodeCore : Nat → List Char → Option (List Char)
  | 0, _ => none
  | _ + 1, [] => some []
  | fuel + 1, '%' :: cs =>
    match pctBytes ('%' :: cs) with
    | none => none
    | some (bs, rem) =>
      match utf8Decode bs with
      | none => none
      | some chars =>
        match pctDecodeCore fuel rem with
        | none => none
        | some tail => some (chars ++ tail)
  | fuel + 1, c :: cs =>
    (pctDecodeCore fuel cs).map (fun tail => c :: tail)

/-- Model of the JavaScript builtin `decodeURIComponent`: percent-escapes are
collected into byte runs and decoded as UTF-8; `none` models the thrown
`URIError` on a malformed escape or an invalid byte sequence. -/
def decodeURIComponent (s : String) : Option String :=
  (pctDecodeCore (s.data.length + 1) s.data).map String.mk

/-- Errors thrown by the conversion: the two `Missing file in EPUB` throws of
`readZipText`, the `Cannot find OPF rootfile` throw of `parseRootfilePath`,
and the `URIError` that `decodeURIComponent` can raise at the uncaught
chapter-lookup site. -/
inductive ConvError
  | missingEntry (path : String)
  | noRootfile
  | uriError
deriving DecidableEq

instance exceptDecEq {ε α : Type} [DecidableEq ε] [DecidableEq α] :
    DecidableEq (Except ε α) := fun x y =>
  match x, y with
  | .ok a, .ok b =>
    if h : a = b then isTrue (by rw [h]) else isFalse (by intro hh; cases hh; exact h rfl)
  | .error a, .error b =>
    if h : a = b then isTrue (by rw [h]) else isFalse (by intro hh; cases hh; exact h rfl)
  | .ok _, .error _ => isFalse (by intro hh; cases hh)
  | .error _, .ok _ => isFalse (by intro hh; cases hh)

/-- JSZip's path-keyed entry lookup `zip.file(path)`; the archive is an
association list from entry name to entry text. -/
def zipFile (zip : List (String × String)) (path : String) : Option String :=
  (zip.find? (fun e => e.1 == path)).map (·.2)

/-- The source's `readZipText`: exact lookup only, throwing
`Missing file in EPUB: path` when the entry is absent. -/
def readZipText (zip : List (String × String)) (path : String) : Except ConvError String :=
  match zipFile zip path with
  | some t => .ok t
  | none => .error (.missingEntry path)

/-- The literal `full-path="` of the rootfile regex. -/
def fullPathLit : List Char := "full-path=\"".data

/-- Capture attempt for the rootfile regex at split point `k` of the greedy
`[^>]*`: the literal `full-path="`, then the nonempty `([^"]+)` capture,
then the closing quote. -/
def rootfileCapture (rest : List Char) (k : Nat) : Option (List Char) :=
  if fullPathLit.isPrefixOf (rest.drop k) then
    let after := rest.drop (k + fullPathLit.length)
    let cap := after.takeWhile (fun c => c != '"')
    if cap.isEmpty then none
    else if (after.drop cap.length).head? == some '"' then some cap else none
  else none

/-- Match attempt of `rootfile[^>]*full-path="([^"]+)"` anchored at the head:
the greedy `[^>]*` tries the longest `>`-free consumption first, so split
points are tried in descending order. -/
def matchRootfileAt (cs : List Char) : Option (List Char) :=
  if "rootfile".data.isPrefixOf cs then
    let rest := cs.drop 8
    let bound := (rest.takeWhile (fun c => c != '>')).length
    (List.range (bound + 1)).reverse.findSome? (rootfileCapture rest)
  else none

/-- Leftmost match of the rootfile regex over the container descriptor. -/
def scanRootfile : List Char → Option (List Char)
  | [] => none
  | c :: rest =>
    match matchRootfileAt (c :: rest) with
    | some r => some r
    | none => scanRootfile rest

/-- The source's `parseRootfilePath`: first capture of
`rootfile[^>]*full-path="([^"]+)"` over `container.xml`; `none` models the
`Cannot find OPF rootfile` throw. -/
def parseRootfilePath (containerXml : String) : Option String :=
  (scanRootfile containerXml.data).map String.mk

/-- The OPF directory prefix: `opfPath.substring(0, lastIndexOf("/") + 1)`
when the path contains a separator, else the empty prefix. -/
def dirOf (p : String) : String :=
  match p.data.reverse.findIdx? (fun c => c == '/') with
  | none => ""
  | some k => String.mk (p.data.take (p.data.length - k))

/-- Leftmost match of the attribute regex `name="([^"]*)"` (case-insensitive)
inside a tag; `lit` is the lowercase `name="` literal. -/
def attrFind (lit : List Char) : List Char → Option (List Char)
  | [] => none
  | c :: rest =>
    match
      (if ciPrefix lit (c :: rest) then
        let after := (c :: rest).drop lit.length
        let cap := after.takeWhile (fun ch => ch != '"')
        if (after.drop cap.length).head? == some '"' then some cap else none
      else none) with
    | some r => some r
    | none => attrFind lit rest

/-- The source's `attr`: first capture of `name="([^"]*)"` with the `i` flag. -/
def attr (tag : String) (name : String) : Option String :=
  (attrFind ((name.data.map Char.toLower) ++ ('=' :: '"' :: [])) tag.data).map String.mk

/-- One scanned tag occurrence: its start index and full matched text. -/
structure TagOcc where
  pos : Nat
  text : String
deriving DecidableEq

/-- Global scan for `openLit\s[^>]*>` (case-insensitive, non-overlapping,
resuming after each match), used for `<item\s[^>]*>` and
`<itemref\s[^>]*>`. -/
def scanTags (openLit : List Char) : Nat → Nat → List Char → List TagOcc
  | 0, _, _ => []
  | _ + 1, _, [] => []
  | fuel + 1, pos, c :: rest =>
    let cs := c :: rest
    if ciPrefix openLit cs &&
        (match (cs.drop openLit.length).head? with | some w => isJsWs w | none => false) then
      let run := (cs.drop openLit.length).takeWhile (fun ch => ch != '>')
      if (cs.drop (openLit.length + run.length)).head? == some '>' then
        let total := openLit.length + run.length + 1
        ⟨pos, String.mk (cs.take total)⟩ :: scanTags openLit fuel (pos + total) (cs.drop total)
      else scanTags openLit fuel (pos + 1) rest
    else scanTags openLit fuel (pos + 1) rest

/-- A manifest entry: href (entity-decoded) and media type. -/
structure ManifestEntry where
  href : String
  mediaType : String
deriving DecidableEq

/-- A spine entry as built by `parseOpf`: the idref and the resolved
manifest href (empty when the idref has no manifest counterpart). -/
structure SpineItem where
  id : String
  href : String
deriving DecidableEq

/-- `Map.set` on the id-keyed manifest: overwrite in place, else append
(last declaration wins, insertion order kept). -/
def mapSet (m : List (String × ManifestEntry)) (k : String) (v : ManifestEntry) :
    List (String × ManifestEntry) :=
  if m.any (fun e => e.1 == k) then m.map (fun e => if e.1 == k then (k, v) else e)
  else m ++ [(k, v)]

/-- `Map.get` on the id-keyed manifest. -/
def mapGet (m : List (String × ManifestEntry)) (k : String) : Option ManifestEntry :=
  (m.find? (fun e => e.1 == k)).map (·.2)

/-- An apostrophe as a one-character string (the replacement text of the
`&apos;` entity). -/
def sQuote : String := (Char.ofNat 39).toString

/-- The source's `decodeXmlEntities`, the same five chained global literal
replacements in the same order. -/
def decodeXmlEntities (s : String) : String :=
  strReplace (strReplace (strReplace (strReplace (strReplace s "&amp;" "&")
    "&lt;" "<") "&gt;" ">") "&quot;" "\"") "&apos;" sQuote

/-- Leftmost match of `<spine[^>]*>([\s\S]*?)<\/spine>` (case-insensitive),
returning the lazily-captured spine body. -/
def spineSection : List Char → Option (List Char)
  | [] => none
  | c :: rest =>
    match
      (if ciPrefix "<spine".data (c :: rest) then
        let after := (c :: rest).drop 6
        let run := after.takeWhile (fun ch => ch != '>')
        if (after.drop run.length).head? == some '>' then
          let inner := after.drop (run.length + 1)
          match findLitCI "</spine>".data inner with
          | some i => some (inner.take i)
          | none => none
        else none
      else none) with
    | some r => some r
    | none => spineSection rest

/-- The source's `parseOpf`: scan `<item\s[^>]*>` tags over the whole package
document (entries with truthy id and href populate the manifest, last
declaration winning), then scan `<itemref\s[^>]*>` tags inside the spine
section (truthy idrefs are retained even without a manifest counterpart,
with an empty href placeholder). -/
def parseOpf (opfXml : String) : List (String × ManifestEntry) × List SpineItem :=
  let cs := opfXml.data
  let itemTags := scanTags "<item".data (cs.length + 1) 0 cs
  let manifest := itemTags.foldl (fun m t =>
    match attr t.text "id", attr t.text "href" with
    | some id, some href =>
      if id ≠ "" ∧ href ≠ "" then
        mapSet m id ⟨decodeXmlEntities href, (attr t.text "media-type").getD ""⟩
      else m
    | _, _ => m) []
  let spine :=
    match spineSection cs with
    | none => []
    | some inner =>
      (scanTags "<itemref".data (inner.length + 1) 0 inner).foldl (fun sp t =>
        match attr t.text "idref" with
        | some idref =>
          if idref ≠ "" then
            sp ++ [⟨idref, ((mapGet manifest idref).map (·.href)).getD ""⟩]
          else sp
        | none => sp) []
  (manifest, spine)

/-- The source's `resolveHref`: strip the fragment, prepend the directory. -/
def resolveHref (baseDir href : String) : String :=
  baseDir ++ String.mk (href.data.takeWhile (fun c => c != '#'))

/-- Length of a `<br\s*\/?>` match (case-insensitive) anchored at the head. -/
def brMatchLen (cs : List Char) : Option Nat :=
  if ciPrefix "<br".data cs then
    let after := cs.drop 3
    let ws := after.takeWhile isJsWs
    let after2 := after.drop ws.length
    match after2.head? with
    | some '/' =>
      if (after2.drop 1).head? == some '>' then some (3 + ws.length + 2) else none
    | some '>' => some (3 + ws.length + 1)
    | _ => none
  else none

/-- Global replacement of `<br\s*\/?>` (case-insensitive) by a newline. -/
def stripBr : Nat → List Char → List Char
  | 0, cs => cs
  | _ + 1, [] => []
  | fuel + 1, c :: rest =>
    match brMatchLen (c :: rest) with
    | some n => '\n' :: stripBr fuel ((c :: rest).drop n)
    | none => c :: stripBr fuel rest

/-- Global removal of `<[^>]+>` matches. -/
def stripAngle : Nat → List Char → List Char
  | 0, cs => cs
  | _ + 1, [] => []
  | fuel + 1, c :: rest =>
    if c == '<' then
      let run := rest.takeWhile (fun ch => ch != '>')
      if !run.isEmpty && (rest.drop run.length).head? == some '>' then
        stripAngle fuel (rest.drop (run.length + 1))
      else c :: stripAngle fuel rest
    else c :: stripAngle fuel rest

/-- Numeric value of a decimal digit run. -/
def digitsToNat (ds : List Char) : Nat :=
  ds.foldl (fun a c => a * 10 + (c.toNat - 48)) 0

/-- Global replacement of decimal numeric character references `&#(\d+);` by
`String.fromCharCode(Number(code))`; `fromCharCode` truncates to a 16-bit
code unit, modelled by the reduction mod 65536. -/
def decodeNumRefs : Nat → List Char → List Char
  | 0, cs => cs
  | _ + 1, [] => []
  | fuel + 1, c :: rest =>
    if c == '&' && rest.head? == some '#' then
      let ds := (rest.drop 1).takeWhile Char.isDigit
      if !ds.isEmpty && ((rest.drop 1).drop ds.length).head? == some ';' then
        Char.ofNat (digitsToNat ds % 65536) ::
          decodeNumRefs fuel ((rest.drop 1).drop (ds.length + 1))
      else c :: decodeNumRefs fuel rest
    else c :: decodeNumRefs fuel rest

/-- Global replacement of `\n{3,}` by exactly two newlines (the regex matches
each maximal run of three or more). -/
def collapseNl : Nat → List Char → List Char
  | 0, cs => cs
  | _ + 1, [] => []
  | fuel + 1, c :: rest =>
    if c == '\n' then
      let run := rest.takeWhile (fun ch => ch == '\n')
      if 2 ≤ run.length then '\n' :: '\n' :: collapseNl fuel (rest.drop run.length)
      else c :: collapseNl fuel rest
    else c :: collapseNl fuel rest

/-- The source's `stripTags`: line breaks to newlines, tag removal, the six
literal entity replacements, decimal numeric references, newline collapsing,
and a final trim - in exactly that order. -/
def stripTags (html : String) : String :=
  let a := stripBr (html.data.length + 1) html.data
  let b := stripAngle (a.length + 1) a
  let c := strReplace (strReplace (strReplace (strReplace (strReplace
    (String.mk b) "&nbsp;" " ") "&amp;" "&") "&lt;" "<") "&gt;" ">") "&quot;" "\""
  let d := strReplace c "&apos;" sQuote
  let e := decodeNumRefs (d.data.length + 1) d.data
  jsTrim (String.mk (collapseNl (e.length + 1) e))

/-- The source's `getImageFormat`: lower-case the path, take the substring
after the last dot, and map the five recognized extensions to their format
names; anything else yields `none`. -/
def getImageFormat (path : String) : Option String :=
  let ext := String.mk ((splitDot (toLowerStr path).data).getLastD [])
  if ext = "" then none
  else List.lookup ext
    [("jpg", "JPEG"), ("jpeg", "JPEG"), ("png", "PNG"), ("gif", "GIF"), ("webp", "WEBP")]

/-- Whether a character is a regex word character (for `\b` boundaries). -/
def isWordChar (c : Char) : Bool :=
  ('a' ≤ c && c ≤ 'z') || ('A' ≤ c && c ≤ 'Z') || ('0' ≤ c && c ≤ '9') || c == '_'

/-- Whether `<lit` occurs at the head with a word boundary after `lit`. -/
def openTagHereCI (lit : List Char) (cs : List Char) : Bool :=
  ciPrefix ('<' :: lit) cs &&
    (match (cs.drop (lit.length + 1)).head? with
     | some c => !isWordChar c
     | none => true)

/-- The test `/<(b|strong)\b/i` over a block's markup. -/
def testBoldTag : List Char → Bool
  | [] => false
  | c :: rest =>
    openTagHereCI "b".data (c :: rest) || openTagHereCI "strong".data (c :: rest) ||
      testBoldTag rest

/-- The test `/<(i|em)\b/i` over a block's markup. -/
def testItalicTag : List Char → Bool
  | [] => false
  | c :: rest =>
    openTagHereCI "i".data (c :: rest) || openTagHereCI "em".data (c :: rest) ||
      testItalicTag rest

/-- Length of a `<(script|style)[^>]*>[\s\S]*?<\/\1>` match (case-insensitive,
alternatives in declaration order) anchored at the head. -/
def scriptStyleLenFor (t : String) (cs : List Char) : Option Nat :=
  if ciPrefix ('<' :: t.data) cs then
    let after := cs.drop (t.length + 1)
    let run := after.takeWhile (fun ch => ch != '>')
    if (after.drop run.length).head? == some '>' then
      let body := after.drop (run.length + 1)
      match findLitCI ('<' :: '/' :: (t.data ++ ['>'])) body with
      | some i => some (t.length + 1 + run.length + 1 + i + (t.length + 3))
      | none => none
    else none
  else none

/-- Global removal of script and style elements with their content. -/
def stripScriptStyle : Nat → List Char → List Char
  | 0, cs => cs
  | _ + 1, [] => []
  | fuel + 1, c :: rest =>
    match
      (match scriptStyleLenFor "script" (c :: rest) with
       | some n => some n
       | none => scriptStyleLenFor "style" (c :: rest)) with
    | some n => stripScriptStyle fuel ((c :: rest).drop n)
    | none => c :: stripScriptStyle fuel rest

/-- Match attempt of `<img\s[^>]*src="([^"]*)"[^>]*\/?>` anchored at the
head, returning total length and raw src capture.  The greedy `[^>]*` before
`src="` tries split points in descending order; the match then extends to
the first `>` after the closing quote. -/
def imgMatchAt (cs : List Char) : Option (Nat × List Char) :=
  if ciPrefix "<img".data cs &&
      (match (cs.drop 4).head? with | some w => isJsWs w | none => false) then
    let rest := cs.drop 5
    let bound := (rest.takeWhile (fun ch => ch != '>')).length
    (List.range (bound + 1)).reverse.findSome? (fun k =>
      if ciPrefix "src=\"".data (rest.drop k) then
        let after := rest.drop (k + 5)
        let cap := after.takeWhile (fun ch => ch != '"')
        if (after.drop cap.length).head? == some '"' then
          let after2 := after.drop (cap.length + 1)
          let run2 := after2.takeWhile (fun ch => ch != '>')
          if (after2.drop run2.length).head? == some '>' then
            some (5 + k + 5 + cap.length + 1 + run2.length + 1, cap)
          else none
        else none
      else none)
  else none

/-- Global scan collecting image matches as (document index, raw src). -/
def scanImgs : Nat → Nat → List Char → List (Nat × List Char)
  | 0, _, _ => []
  | _ + 1, _, [] => []
  | fuel + 1, pos, c :: rest =>
    match imgMatchAt (c :: rest) with
    | some (n, cap) => (pos, cap) :: scanImgs fuel (pos + n) ((c :: rest).drop n)
    | none => scanImgs fuel (pos + 1) rest

/-- The block-level tag alternatives of the source's block regex, in
declaration order (`h[1-6]` expanded). -/
def blockTagList : List String :=
  ["h1", "h2", "h3", "h4", "h5", "h6", "p", "div", "li", "blockquote", "tr", "dt", "dd"]

/-- Match attempt of `<tag(\s[^>]*)?>[\s\S]*?<\/tag>` for one tag alternative
anchored at the head, returning the total match length. -/
def blockTagMatch (t : String) (cs : List Char) : Option Nat :=
  if ciPrefix ('<' :: t.data) cs then
    let after := cs.drop (t.length + 1)
    let openLen :=
      match after.head? with
      | some '>' => some (t.length + 2)
      | some w =>
        if isJsWs w then
          let run := after.takeWhile (fun ch => ch != '>')
          if (after.drop run.length).head? == some '>' then
            some (t.length + 1 + run.length + 1)
          else none
        else none
      | none => none
    match openLen with
    | none => none
    | some ol =>
      let body := cs.drop ol
      match findLitCI ('<' :: '/' :: (t.data ++ ['>'])) body with
      | some i => some (ol + i + (t.length + 3))
      | none => none
  else none

/-- One matched block-level element: start index, end index, lowercased tag
name, and full matched text. -/
structure BlockOcc where
  start : Nat
  stop : Nat
  tag : String
  text : String
deriving DecidableEq

/-- Global non-overlapping scan of the block-level element regex. -/
def scanBlocks : Nat → Nat → List Char → List BlockOcc
  | 0, _, _ => []
  | _ + 1, _, [] => []
  | fuel + 1, pos, c :: rest =>
    match blockTagList.findSome? (fun t =>
        (blockTagMatch t (c :: rest)).map (fun n => (n, t))) with
    | some (n, t) =>
      ⟨pos, pos + n, t, String.mk ((c :: rest).take n)⟩ ::
        scanBlocks fuel (pos + n) ((c :: rest).drop n)
    | none => scanBlocks fuel (pos + 1) rest

/-- The discriminator of a content block. -/
inductive BlockType
  | paragraph
  | heading
  | image
deriving DecidableEq

/-- A content block as produced by the segmenter (optional fields of the
source's interface become `Option`/`Bool` with falsy defaults). -/
structure ContentBlock where
  type : BlockType
  text : String
  tag : Option String := none
  bold : Bool := false
  italic : Bool := false
  src : Option String := none
deriving DecidableEq

/-- The source's `parseHtmlToBlocks`: strip script/style elements, collect
image positions, match block-level elements; per block emit enclosed images
first (in document order) and then the tag-stripped text as heading or
paragraph (with bold/italic sniffed anywhere inside); append images enclosed
by no block; fall back to the whole stripped text when no blocks at all were
produced. -/
def parseHtmlToBlocks (html : String) : List ContentBlock :=
  let cleaned := stripScriptStyle (html.data.length + 1) html.data
  let imgs := (scanImgs (cleaned.length + 1) 0 cleaned).map
    (fun p => (p.1, decodeXmlEntities (String.mk p.2)))
  let bms := scanBlocks (cleaned.length + 1) 0 cleaned
  let blocks := bms.foldl (fun acc bm =>
    let acc := acc ++ ((imgs.filter (fun p => bm.start ≤ p.1 ∧ p.1 < bm.stop)).map
      (fun p => { type := .image, text := "", src := some p.2 }))
    let text := jsTrim (stripTags bm.text)
    if text = "" then acc
    else if "h".data.isPrefixOf bm.tag.data then
      acc ++ [{ type := .heading, text := text, tag := some bm.tag }]
    else
      acc ++ [{ type := .paragraph, text := text, bold := testBoldTag bm.text.data,
                italic := testItalicTag bm.text.data }]) []
  let leftover := (imgs.filter (fun p =>
      !(bms.any (fun bm => bm.start ≤ p.1 ∧ p.1 < bm.stop)))).map
    (fun p => ({ type := .image, text := "", src := some p.2 } : ContentBlock))
  let blocks := blocks ++ leftover
  if blocks.isEmpty then
    let fb := jsTrim (stripTags (String.mk cleaned))
    if fb = "" then [] else [{ type := .paragraph, text := fb }]
  else blocks

/-! ## Pagination and layout engine

The jsPDF document state that the conversion observes is: the current page
count (`getNumberOfPages`, starting at 1, incremented by each `addPage`),
the vertical cursor, and the first-page flag.  Every `pdf.text` and
`pdf.addImage` call is recorded as an emitted unit carrying the page and
cursor at which it was placed and the vertical height reserved for it. -/

/-- Page geometry: letter size in points. -/
def PAGE_WIDTH : ℚ := 612

/-- Page height of the letter format in points. -/
def PAGE_HEIGHT : ℚ := 792

/-- The fixed page margin. -/
def MARGIN : ℚ := 50

/-- Content width: page width minus both margins. -/
def CONTENT_WIDTH : ℚ := PAGE_WIDTH - MARGIN * 2

/-- Base line height for paragraph text. -/
def LINE_HEIGHT : ℚ := 16

/-- Base font size for paragraph text. -/
def FONT_SIZE : ℚ := 11

/-- The heading font-size table of the source (`h1` through `h4` only). -/
def HEADING_SIZES : List (String × ℚ) := [("h1", 22), ("h2", 18), ("h3", 15), ("h4", 13)]

/-- The heading size selection `HEADING_SIZES[block.tag ?? "h2"] ?? 15`. -/
def headingSize (tag : Option String) : ℚ :=
  (HEADING_SIZES.lookup (tag.getD "h2")).getD 15

/-- The kind of an emitted unit: a heading line (at its font size), a body
text line (with its font style), or a placed image (with its display box). -/
inductive UKind
  | headingLine (size : ℚ)
  | textLine (style : String)
  | image (w h : ℚ)
deriving DecidableEq

/-- One emitted unit of content: the spine index of its chapter, the page and
cursor position at which it was placed, the vertical height reserved for it
(the `ensureSpace` argument), its kind, and its text or resolved path. -/
structure LUnit where
  spineIdx : Nat
  page : Nat
  y : ℚ
  height : ℚ
  kind : UKind
  content : String
deriving DecidableEq

/-- The layout state: vertical cursor, page count (jsPDF starts with one
page open), the source's `isFirstPage` flag, and the emitted units so far. -/
structure LState where
  cursorY : ℚ
  pageCount : Nat
  isFirstPage : Bool
  units : List LUnit
deriving DecidableEq

/-- The initial layout state: cursor at the top margin, one open page. -/
def initState : LState := ⟨MARGIN, 1, true, []⟩

/-- The source's `ensureSpace`: if the cursor plus the needed height would
pass the bottom margin, add a page and reset the cursor to the top margin. -/
def ensureSpace (needed : ℚ) (s : LState) : LState :=
  if s.cursorY + needed > PAGE_HEIGHT - MARGIN then
    { s with pageCount := s.pageCount + 1, cursorY := MARGIN }
  else s

/-- The source's `addNewPage`: add a page unless still on the untouched first
page, reset the cursor, and clear the first-page flag. -/
def addNewPage (s : LState) : LState :=
  { s with pageCount := if s.isFirstPage then s.pageCount else s.pageCount + 1,
           cursorY := MARGIN, isFirstPage := false }

/-- Record one emitted unit at the current page and cursor. -/
def pushUnit (si : Nat) (k : UKind) (h : ℚ) (content : String) (s : LState) : LState :=
  { s with units := s.units ++ [⟨si, s.pageCount, s.cursorY, h, k, content⟩] }

/-- The oracle configuration for the two external library services:
`split sz text` models `jsPDF.splitTextToSize(text, CONTENT_WIDTH)` at font
size `sz`, and `dims data ext` models `getImageDimensions` (which never
rejects: decode failure resolves the fixed 300x200 fallback). -/
structure Cfg where
  split : ℚ → String → List String
  dims : String → String → ℚ × ℚ

/-- The display-box computation of the image branch: scale down on width to
the content width, then scale down on height to the fixed maximum 400. -/
def scaleBox (d : ℚ × ℚ) : ℚ × ℚ :=
  let p := if d.1 > CONTENT_WIDTH then (CONTENT_WIDTH, d.2 * CONTENT_WIDTH / d.1) else (d.1, d.2)
  if p.2 > 400 then (p.1 * 400 / p.2, 400) else p

/-- Emit wrapped lines one at a time, each guarded by `ensureSpace lineH` and
advancing the cursor by `lineH`. -/
def renderLines (si : Nat) (lineH : ℚ) (k : UKind) : List String → LState → LState
  | [], s => s
  | l :: ls, s =>
    let s1 := ensureSpace lineH s
    let s2 := pushUnit si k lineH l s1
    renderLines si lineH k ls { s2 with cursorY := s2.cursorY + lineH }

/-- The chapter-relative image lookup of the image branch:
`zip.file(href) ?? zip.file(decodeURIComponent(href))`, with the `URIError`
of a malformed escape absorbed by the surrounding `try`/`catch` (skip). -/
def imgLookup (zip : List (String × String)) (imgHref : String) : Option String :=
  match zipFile zip imgHref with
  | some e => some e
  | none =>
    match decodeURIComponent imgHref with
    | some d => zipFile zip d
    | none => none

/-- The image branch of the block loop: resolve the source path against the
archive (exact, then percent-decoded; any failure, including a decode
`URIError`, is absorbed and skips the block), check the extension map, scale
the native dimensions, reserve vertical space and place the image. -/
def renderImage (cfg : Cfg) (zip : List (String × String)) (opfDir : String) (si : Nat)
    (src : Option String) (s : LState) : LState :=
  let imgHref := resolveHref opfDir (src.getD "")
  match imgLookup zip imgHref with
  | none => s
  | some imgData =>
    match getImageFormat imgHref with
    | none => s
    | some ext =>
      let wh := scaleBox (cfg.dims imgData ext)
      let s1 := ensureSpace (wh.2 + 10) s
      let s2 := pushUnit si (.image wh.1 wh.2) (wh.2 + 10) imgHref s1
      { s2 with cursorY := s2.cursorY + wh.2 + 10 }

/-- The per-block dispatch of the block loop: headings reserve
`size + LINE_HEIGHT`, add a half-size gap, emit wrapped lines at `size + 4`
each and a trailing 4-point gap; paragraphs skip when trimmed-empty, emit
wrapped lines at the base line height and a trailing 6-point gap; images go
through `renderImage`. -/
def renderBlock (cfg : Cfg) (zip : List (String × String)) (opfDir : String) (si : Nat)
    (b : ContentBlock) (s : LState) : LState :=
  match b.type with
  | .heading =>
    let size := headingSize b.tag
    let s1 := ensureSpace (size + LINE_HEIGHT) s
    let s2 := { s1 with cursorY := s1.cursorY + size / 2 }
    let s3 := renderLines si (size + 4) (.headingLine size) (cfg.split size b.text) s2
    { s3 with cursorY := s3.cursorY + 4 }
  | .image => renderImage cfg zip opfDir si b.src s
  | .paragraph =>
    if jsTrim b.text = "" then s
    else
      let style :=
        if b.bold ∧ b.italic then "bolditalic"
        else if b.bold then "bold"
        else if b.italic then "italic"
        else "normal"
      let s1 := renderLines si LINE_HEIGHT (.textLine style) (cfg.split FONT_SIZE b.text) s
      { s1 with cursorY := s1.cursorY + 6 }

/-- The block loop over one chapter's content blocks. -/
def renderBlocks (cfg : Cfg) (zip : List (String × String)) (opfDir : String) (si : Nat) :
    List ContentBlock → LState → LState
  | [], s => s
  | b :: bs, s => renderBlocks cfg zip opfDir si bs (renderBlock cfg zip opfDir si b s)

/-- One chapter's rendering once its markup has been read: forced page break
except at spine index 0 (where only the first-page flag is cleared), then
the block loop over the segmented content. -/
def renderChapterStep (cfg : Cfg) (zip : List (String × String)) (opfDir : String) (si : Nat)
    (html : String) (s : LState) : LState :=
  let s1 := if si > 0 then addNewPage s else { s with isFirstPage := false }
  renderBlocks cfg zip opfDir si (parseHtmlToBlocks html) s1

/-- The spine loop of `convertEpubToPdf`: skip items without a manifest
entry; look the chapter up under the exact resolved href and then under its
percent-decoded variant - this second lookup is outside any `try`/`catch`,
so a malformed escape throws a `URIError` out of the conversion; skip items
found under neither; render the rest in spine order. -/
def renderSpine (cfg : Cfg) (zip : List (String × String)) (opfDir : String)
    (manifest : List (String × ManifestEntry)) :
    List SpineItem → Nat → LState → Except ConvError LState
  | [], _, s => .ok s
  | item :: rest, si, s =>
    match mapGet manifest item.id with
    | none => renderSpine cfg zip opfDir manifest rest (si + 1) s
    | some entry =>
      let itemHref := resolveHref opfDir entry.href
      match zipFile zip itemHref with
      | some html =>
        renderSpine cfg zip opfDir manifest rest (si + 1)
          (renderChapterStep cfg zip opfDir si html s)
      | none =>
        match decodeURIComponent itemHref with
        | none => .error .uriError
        | some d =>
          match zipFile zip d with
          | some html =>
            renderSpine cfg zip opfDir manifest rest (si + 1)
              (renderChapterStep cfg zip opfDir si html s)
          | none => renderSpine cfg zip opfDir manifest rest (si + 1) s

/-- The conversion result: the final page count and the emitted units (the
encoded document bytes are a pure function of the emitted draw calls and are
not modelled further). -/
structure ConvResult where
  pageCount : Nat
  units : List LUnit
deriving DecidableEq

/-- The source's `convertEpubToPdf`: read `META-INF/container.xml`, extract
the package-document path, read the package document, parse manifest and
spine, and run the spine loop from the initial one-page state. -/
def convertEpubToPdf (cfg : Cfg) (zip : List (String × String)) : Except ConvError ConvResult :=
  match readZipText zip "META-INF/container.xml" with
  | .error e => .error e
  | .ok containerXml =>
    match parseRootfilePath containerXml with
    | none => .error .noRootfile
    | some opfPath =>
      let opfDir := dirOf opfPath
      match readZipText zip opfPath with
      | .error e => .error e
      | .ok opfXml =>
        let ms := parseOpf opfXml
        match renderSpine cfg zip opfDir ms.1 ms.2 0 initState with
        | .error e => .error e
        | .ok s => .ok ⟨s.pageCount, s.units⟩

/-! ## Invariant infrastructure

`StepOK si s t` records what one chapter-internal state transformer does:
it leaves the first-page flag alone, never removes a page, and only appends
units - each tagged with the current spine index, placed on a page between
the entry and exit page counts, and vertically inside the printable area. -/

/-- Bundle of facts about a chapter-internal state transition. -/
def StepOK (si : Nat) (s t : LState) : Prop :=
  t.isFirstPage = s.isFirstPage ∧ s.pageCount ≤ t.pageCount ∧
    ∃ l, t.units = s.units ++ l ∧
      ∀ u ∈ l, u.spineIdx = si ∧ s.pageCount ≤ u.page ∧ u.page ≤ t.pageCount ∧
        u.y + u.height ≤ PAGE_HEIGHT - MARGIN

/-- The invariant carried through the spine loop at spine index `si`: at
least one page is open; once anything has been emitted the first-page flag
is down; every emitted unit belongs to an earlier chapter, sits on an
already-allocated page, and fits above the bottom margin; the emission order
follows spine order; and chapters are separated by strict page order. -/
def SpineInv (si : Nat) (s : LState) : Prop :=
  1 ≤ s.pageCount ∧
  (s.units ≠ [] → s.isFirstPage = false) ∧
  (∀ u ∈ s.units, u.spineIdx < si ∧ u.page ≤ s.pageCount ∧
      u.y + u.height ≤ PAGE_HEIGHT - MARGIN) ∧
  List.Pairwise (fun a b => a ≤ b) (s.units.map (fun u => u.spineIdx)) ∧
  (∀ u ∈ s.units, ∀ v ∈ s.units, u.spineIdx < v.spineIdx → u.page < v.page)

/-! ## Concrete archives and oracles used for evaluation -/

/-- A benign oracle configuration: one line per text block, 300x200 images. -/
def cfg0 : Cfg := ⟨fun _ t => [t], fun _ _ => (300, 200)⟩

/-- The specification's two-chapter scenario archive: the spine lists `ch2`
before `ch1`, while the manifest declares `ch1` first. -/
def zipScenario : List (String × String) :=
  [("META-INF/container.xml",
    "<container><rootfiles><rootfile full-path=\"OEBPS/content.opf\" media-type=\"application/oebps-package+xml\"/></rootfiles></container>"),
   ("OEBPS/content.opf",
    "<package><manifest><item id=\"ch1\" href=\"ch1.xhtml\" media-type=\"application/xhtml+xml\"/><item id=\"ch2\" href=\"ch2.xhtml\" media-type=\"application/xhtml+xml\"/></manifest><spine><itemref idref=\"ch2\"/><itemref idref=\"ch1\"/></spine></package>"),
   ("OEBPS/ch1.xhtml", "<html><body><p>First chapter text</p></body></html>"),
   ("OEBPS/ch2.xhtml", "<html><body><p>Second chapter text</p></body></html>")]

/-- The scenario archive with the two manifest item declarations swapped
(`ch2` declared first); spine and chapter files unchanged. -/
def zipScenarioSwapped : List (String × String) :=
  [("META-INF/container.xml",
    "<container><rootfiles><rootfile full-path=\"OEBPS/content.opf\" media-type=\"application/oebps-package+xml\"/></rootfiles></container>"),
   ("OEBPS/content.opf",
    "<package><manifest><item id=\"ch2\" href=\"ch2.xhtml\" media-type=\"application/xhtml+xml\"/><item id=\"ch1\" href=\"ch1.xhtml\" media-type=\"application/xhtml+xml\"/></manifest><spine><itemref idref=\"ch2\"/><itemref idref=\"ch1\"/></spine></package>"),
   ("OEBPS/ch1.xhtml", "<html><body><p>First chapter text</p></body></html>"),
   ("OEBPS/ch2.xhtml", "<html><body><p>Second chapter text</p></body></html>")]

/-- A readable container descriptor naming `content.opf`. -/
def containerPlain : String :=
  "<container><rootfiles><rootfile full-path=\"content.opf\" media-type=\"application/oebps-package+xml\"/></rootfiles></container>"

/-- An archive whose container and package document are both readable, but
whose single spine chapter has a malformed percent-escape in its href and no
exact-path entry. -/
def zipPctBad : List (String × String) :=
  [("META-INF/container.xml", containerPlain),
   ("content.opf",
    "<package><manifest><item id=\"c1\" href=\"a%zzb.xhtml\" media-type=\"application/xhtml+xml\"/></manifest><spine><itemref idref=\"c1\"/></spine></package>")]

/-- An archive whose package document has no manifest items and no spine. -/
def zipEmptyOpf : List (String × String) :=
  [("META-INF/container.xml", containerPlain),
   ("content.opf", "<package></package>")]

/-- The evaluated conversion result of the two-chapter scenario archive. -/
def scenarioResult : ConvResult :=
  ⟨2, [⟨0, 1, 50, 16, .textLine "normal", "Second chapter text"⟩,
       ⟨1, 2, 50, 16, .textLine "normal", "First chapter text"⟩]⟩

/-- Whether a spine item cannot make the chapter lookup throw: either it has
no manifest entry, or its resolved href is found exactly, or its href
percent-decodes without error. -/
def spineItemSafeB (zip : List (String × String)) (dir : String)
    (man : List (String × ManifestEntry)) (it : SpineItem) : Bool :=
  match mapGet man it.id with
  | none => true
  | some e => (zipFile zip (resolveHref dir e.href)).isSome ||
      (decodeURIComponent (resolveHref dir e.href)).isSome

/-! ## Observational equality up to spine-index tags (for C2) -/

/-- The spine-index-erased view of an emitted unit. -/
def eraseSi (u : LUnit) : Nat × ℚ × ℚ × UKind × String :=
  (u.page, u.y, u.height, u.kind, u.content)

/-- Equality of layout states up to the spine-index tags on emitted units. -/
def obsEq (s t : LState) : Prop :=
  s.cursorY = t.cursorY ∧ s.pageCount = t.pageCount ∧ s.isFirstPage = t.isFirstPage ∧
    s.units.map eraseSi = t.units.map eraseSi

/-- Lifting of `obsEq` through the error monad of the spine loop. -/
def exceptObsEq : Except ConvError LState → Except ConvError LState → Prop
  | .ok a, .ok b => obsEq a b
  | .error e, .error f => e = f
  | _, _ => False

/-! ## Invariant lemmas and claim theorems -/

lemma stepOK_refl (si : Nat) (s : LState) : StepOK si s s :=
  ⟨rfl, le_refl _, [], by simp, by simp⟩

lemma stepOK_trans {si : Nat} {s t v : LState} (h1 : StepOK si s t) (h2 : StepOK si t v) :
    StepOK si s v := by
  obtain ⟨f1, p1, l1, e1, q1⟩ := h1
  obtain ⟨f2, p2, l2, e2, q2⟩ := h2
  refine ⟨f2.trans f1, p1.trans p2, l1 ++ l2, by rw [e2, e1, List.append_assoc], ?_⟩
  intro u hu
  rcases List.mem_append.mp hu with h | h
  · obtain ⟨a, b, c, d⟩ := q1 u h; exact ⟨a, b, c.trans p2, d⟩
  · obtain ⟨a, b, c, d⟩ := q2 u h; exact ⟨a, p1.trans b, c, d⟩

lemma stepOK_setCursor (si : Nat) (s : LState) (x : ℚ) :
    StepOK si s { s with cursorY := x } :=
  ⟨rfl, le_refl _, [], by simp, by simp⟩

lemma ensureSpace_stepOK (si : Nat) (n : ℚ) (s : LState) :
    StepOK si s (ensureSpace n s) := by
  unfold ensureSpace
  split
  · exact ⟨rfl, Nat.le_succ _, [], by simp, by simp⟩
  · exact stepOK_refl si s

lemma ensureSpace_cursor (n : ℚ) (s : LState) (h : n ≤ PAGE_HEIGHT - 2 * MARGIN) :
    (ensureSpace n s).cursorY + n ≤ PAGE_HEIGHT - MARGIN := by
  unfold ensureSpace
  split
  · simp only
    unfold PAGE_HEIGHT MARGIN at h ⊢
    linarith
  · next hc => linarith [not_lt.mp hc]

lemma pushUnit_stepOK (si : Nat) (k : UKind) (hh : ℚ) (c : String) (s : LState)
    (h : s.cursorY + hh ≤ PAGE_HEIGHT - MARGIN) :
    StepOK si s (pushUnit si k hh c s) := by
  refine ⟨rfl, le_refl _, [⟨si, s.pageCount, s.cursorY, hh, k, c⟩], rfl, ?_⟩
  intro u hu
  simp only [List.mem_singleton] at hu
  subst hu
  exact ⟨rfl, le_refl _, le_refl _, h⟩

lemma renderLines_stepOK (si : Nat) (lineH : ℚ) (k : UKind)
    (hH : lineH ≤ PAGE_HEIGHT - 2 * MARGIN) :
    ∀ (ls : List String) (s : LState), StepOK si s (renderLines si lineH k ls s)
  | [], s => stepOK_refl si s
  | l :: ls, s => by
    have h1 := ensureSpace_stepOK si lineH s
    have hc := ensureSpace_cursor lineH s hH
    have h2 := pushUnit_stepOK si k lineH l (ensureSpace lineH s) hc
    have h3 := stepOK_setCursor si (pushUnit si k lineH l (ensureSpace lineH s))
      ((pushUnit si k lineH l (ensureSpace lineH s)).cursorY + lineH)
    have h4 := renderLines_stepOK si lineH k hH ls
      { pushUnit si k lineH l (ensureSpace lineH s) with
        cursorY := (pushUnit si k lineH l (ensureSpace lineH s)).cursorY + lineH }
    exact stepOK_trans (stepOK_trans (stepOK_trans h1 h2) h3) h4

lemma headingSize_cases (t : Option String) :
    headingSize t = 22 ∨ headingSize t = 18 ∨ headingSize t = 15 ∨ headingSize t = 13 := by
  unfold headingSize HEADING_SIZES
  simp only [List.lookup]
  repeat' split <;> simp_all

lemma headingSize_le (t : Option String) : headingSize t ≤ 22 := by
  rcases headingSize_cases t with h | h | h | h <;> rw [h] <;> norm_num

lemma scaleBox_h_le (d : ℚ × ℚ) : (scaleBox d).2 ≤ 400 := by
  unfold scaleBox
  dsimp only
  split <;> split
  · norm_num
  · next h => exact le_of_not_lt h
  · norm_num
  · next h => exact le_of_not_lt h

lemma renderImage_stepOK (cfg : Cfg) (zip : List (String × String)) (dir : String)
    (si : Nat) (src : Option String) (s : LState) :
    StepOK si s (renderImage cfg zip dir si src s) := by
  unfold renderImage
  dsimp only
  cases h1 : imgLookup zip (resolveHref dir (src.getD "")) with
  | none => simp only [h1]; exact stepOK_refl si s
  | some d =>
    simp only [h1]
    cases h2 : getImageFormat (resolveHref dir (src.getD "")) with
    | none => exact stepOK_refl si s
    | some ext =>
      have hbound : (scaleBox (cfg.dims d ext)).2 + 10 ≤ PAGE_HEIGHT - 2 * MARGIN := by
        have := scaleBox_h_le (cfg.dims d ext)
        unfold PAGE_HEIGHT MARGIN
        linarith
      have ha := ensureSpace_stepOK si ((scaleBox (cfg.dims d ext)).2 + 10) s
      have hc := ensureSpace_cursor ((scaleBox (cfg.dims d ext)).2 + 10) s hbound
      have hb := pushUnit_stepOK si
        (.image (scaleBox (cfg.dims d ext)).1 (scaleBox (cfg.dims d ext)).2)
        ((scaleBox (cfg.dims d ext)).2 + 10) (resolveHref dir (src.getD ""))
        (ensureSpace ((scaleBox (cfg.dims d ext)).2 + 10) s) hc
      exact stepOK_trans (stepOK_trans ha hb) (stepOK_setCursor si _ _)

lemma renderBlock_stepOK (cfg : Cfg) (zip : List (String × String)) (dir : String)
    (si : Nat) (b : ContentBlock) (s : LState) :
    StepOK si s (renderBlock cfg zip dir si b s) := by
  unfold renderBlock
  cases b.type with
  | heading =>
    dsimp only
    refine stepOK_trans (ensureSpace_stepOK si (headingSize b.tag + LINE_HEIGHT) s) ?_
    refine stepOK_trans (stepOK_setCursor si _
      ((ensureSpace (headingSize b.tag + LINE_HEIGHT) s).cursorY + headingSize b.tag / 2)) ?_
    refine stepOK_trans (renderLines_stepOK si (headingSize b.tag + 4)
      (UKind.headingLine (headingSize b.tag))
      (by have := headingSize_le b.tag; unfold PAGE_HEIGHT MARGIN; linarith)
      (cfg.split (headingSize b.tag) b.text) _) ?_
    exact stepOK_setCursor si _ _
  | image => exact renderImage_stepOK cfg zip dir si b.src s
  | paragraph =>
    dsimp only
    split
    · exact stepOK_refl si s
    · refine stepOK_trans (renderLines_stepOK si LINE_HEIGHT
        (UKind.textLine (if b.bold ∧ b.italic then "bolditalic"
          else if b.bold then "bold" else if b.italic then "italic" else "normal"))
        (by unfold LINE_HEIGHT PAGE_HEIGHT MARGIN; norm_num)
        (cfg.split FONT_SIZE b.text) s) ?_
      exact stepOK_setCursor si _ _

lemma renderBlocks_stepOK (cfg : Cfg) (zip : List (String × String)) (dir : String)
    (si : Nat) : ∀ (bs : List ContentBlock) (s : LState),
    StepOK si s (renderBlocks cfg zip dir si bs s)
  | [], s => stepOK_refl si s
  | b :: bs, s =>
    stepOK_trans (renderBlock_stepOK cfg zip dir si b s)
      (renderBlocks_stepOK cfg zip dir si bs (renderBlock cfg zip dir si b s))

lemma spineInv_mono {si sj : Nat} (h : si ≤ sj) {s : LState} (inv : SpineInv si s) :
    SpineInv sj s := by
  obtain ⟨a, b, c, d, e⟩ := inv
  exact ⟨a, b, fun u hu => ⟨lt_of_lt_of_le (c u hu).1 h, (c u hu).2⟩, d, e⟩

lemma pairwise_const_le {L : List LUnit} {c : Nat} (h : ∀ u ∈ L, u.spineIdx = c) :
    List.Pairwise (fun a b => a ≤ b) (L.map (fun u => u.spineIdx)) := by
  induction L with
  | nil => simp
  | cons x xs ih =>
    simp only [List.map_cons, List.pairwise_cons]
    refine ⟨?_, ih (fun u hu => h u (List.mem_cons_of_mem _ hu))⟩
    intro a ha
    simp only [List.mem_map] at ha
    obtain ⟨u, hu, rfl⟩ := ha
    rw [h x (by simp), h u (List.mem_cons_of_mem _ hu)]

lemma chapterStep_inv (cfg : Cfg) (zip : List (String × String)) (dir : String)
    (si : Nat) (html : String) (s : LState) (inv : SpineInv si s) :
    SpineInv (si + 1) (renderChapterStep cfg zip dir si html s) := by
  obtain ⟨hpc1, hflag, hunits, hpair, hpages⟩ := inv
  unfold renderChapterStep
  set s1 := if si > 0 then addNewPage s else { s with isFirstPage := false } with hs1def
  obtain ⟨hf, hp, l, he, hl⟩ := renderBlocks_stepOK cfg zip dir si (parseHtmlToBlocks html) s1
  have h1flag : s1.isFirstPage = false := by rw [hs1def]; split <;> simp [addNewPage]
  have h1units : s1.units = s.units := by rw [hs1def]; split <;> simp [addNewPage]
  have h1pcge : s.pageCount ≤ s1.pageCount := by
    rw [hs1def]; split
    · simp only [addNewPage]; split <;> omega
    · simp
  have h1pcgt : s.units ≠ [] → s.pageCount < s1.pageCount := by
    intro hne
    have hif : s.isFirstPage = false := hflag hne
    have hsi : 0 < si := by
      obtain ⟨u, hu⟩ := List.exists_mem_of_ne_nil _ hne
      have := (hunits u hu).1
      omega
    rw [hs1def, if_pos hsi]
    simp only [addNewPage, hif]
    simp
  set s2 := renderBlocks cfg zip dir si (parseHtmlToBlocks html) s1 with hs2def
  have he2 : s2.units = s.units ++ l := by rw [he, h1units]
  refine ⟨le_trans hpc1 (le_trans h1pcge hp), fun _ => by rw [hf]; exact h1flag, ?_, ?_, ?_⟩
  · intro u hu
    rw [he2] at hu
    rcases List.mem_append.mp hu with hu | hu
    · obtain ⟨a, b, c⟩ := hunits u hu
      exact ⟨by omega, le_trans b (le_trans h1pcge hp), c⟩
    · obtain ⟨a, b, c, d⟩ := hl u hu
      exact ⟨by omega, c, d⟩
  · rw [he2, List.map_append]
    refine List.pairwise_append.mpr ⟨hpair, pairwise_const_le (fun u hu => (hl u hu).1), ?_⟩
    intro a ha b hb
    simp only [List.mem_map] at ha hb
    obtain ⟨u, hu, rfl⟩ := ha
    obtain ⟨v, hv, rfl⟩ := hb
    have := (hunits u hu).1
    have := (hl v hv).1
    omega
  · intro u hu v hv hlt
    rw [he2] at hu hv
    rcases List.mem_append.mp hu with hu | hu <;> rcases List.mem_append.mp hv with hv | hv
    · exact hpages u hu v hv hlt
    · have hne : s.units ≠ [] := by intro hnil; rw [hnil] at hu; cases hu
      calc u.page ≤ s.pageCount := (hunits u hu).2.1
        _ < s1.pageCount := h1pcgt hne
        _ ≤ v.page := (hl v hv).2.1
    · have h1 := (hl u hu).1
      have h2 := (hunits v hv).1
      omega
    · have h1 := (hl u hu).1
      have h2 := (hl v hv).1
      omega

lemma renderSpine_inv (cfg : Cfg) (zip : List (String × String)) (dir : String)
    (man : List (String × ManifestEntry)) :
    ∀ (spine : List SpineItem) (si : Nat) (s s' : LState),
      renderSpine cfg zip dir man spine si s = .ok s' → SpineInv si s →
      ∃ sj, SpineInv sj s'
  | [], si, s, s', h, inv => by
    simp only [renderSpine, Except.ok.injEq] at h
    exact ⟨si, h ▸ inv⟩
  | item :: rest, si, s, s', h, inv => by
    simp only [renderSpine] at h
    cases hm : mapGet man item.id with
    | none =>
      rw [hm] at h
      exact renderSpine_inv cfg zip dir man rest (si + 1) s s' h
        (spineInv_mono (Nat.le_succ si) inv)
    | some entry =>
      rw [hm] at h
      simp only at h
      cases hz : zipFile zip (resolveHref dir entry.href) with
      | some html =>
        rw [hz] at h
        exact renderSpine_inv cfg zip dir man rest (si + 1) _ s' h
          (chapterStep_inv cfg zip dir si html s inv)
      | none =>
        rw [hz] at h
        dsimp only at h
        cases hd : decodeURIComponent (resolveHref dir entry.href) with
        | none => rw [hd] at h; cases h
        | some d =>
          rw [hd] at h
          dsimp only at h
          cases hz2 : zipFile zip d with
          | some html =>
            rw [hz2] at h
            exact renderSpine_inv cfg zip dir man rest (si + 1) _ s' h
              (chapterStep_inv cfg zip dir si html s inv)
          | none =>
            rw [hz2] at h
            exact renderSpine_inv cfg zip dir man rest (si + 1) s s' h
              (spineInv_mono (Nat.le_succ si) inv)

lemma initState_inv : SpineInv 0 initState := by
  refine ⟨by norm_num [initState], by simp [initState], by simp [initState],
    by simp [initState], by simp [initState]⟩

lemma convertEpubToPdf_inv (cfg : Cfg) (zip : List (String × String)) (r : ConvResult)
    (h : convertEpubToPdf cfg zip = .ok r) :
    ∃ sj s', SpineInv sj s' ∧ r.pageCount = s'.pageCount ∧ r.units = s'.units := by
  unfold convertEpubToPdf at h
  cases h1 : readZipText zip "META-INF/container.xml" with
  | error e => rw [h1] at h; cases h
  | ok cx =>
    rw [h1] at h
    dsimp only at h
    cases h2 : parseRootfilePath cx with
    | none => rw [h2] at h; cases h
    | some opfPath =>
      rw [h2] at h
      dsimp only at h
      cases h3 : readZipText zip opfPath with
      | error e => rw [h3] at h; cases h
      | ok opfXml =>
        rw [h3] at h
        dsimp only at h
        cases h4 : renderSpine cfg zip (dirOf opfPath) (parseOpf opfXml).1
            (parseOpf opfXml).2 0 initState with
        | error e => rw [h4] at h; cases h
        | ok sfinal =>
          rw [h4] at h
          simp only [Except.ok.injEq] at h
          obtain ⟨sj, hinv⟩ := renderSpine_inv cfg zip (dirOf opfPath) (parseOpf opfXml).1
            (parseOpf opfXml).2 0 initState sfinal h4 initState_inv
          exact ⟨sj, sfinal, hinv, by rw [← h], by rw [← h]⟩

/-- C9: the segmenter's entity decoding during tag-stripping round-trips the
specification's examples: the five named entities decode to the five
characters, and the decimal reference 65 decodes to the letter A. -/
theorem C9_entity_decoding_roundtrip :
    stripTags "&amp;&lt;&gt;&quot;&apos;" = "&<>\"" ++ sQuote ∧
    stripTags "&#65;" = "A" := by
  with_unfolding_all decide

/-- C8 counterexample: the claim says heading levels 5 and 6 render at the
display-level-4 size; in the code `HEADING_SIZES` has no `h5` entry and the
fallback is 15, which differs from the `h4` size 13. -/
theorem C8_counterexample_h5_size :
    headingSize (some "h5") = 15 ∧ headingSize (some "h4") = 13 ∧
    ¬ headingSize (some "h5") = headingSize (some "h4") := by
  with_unfolding_all decide

/-- C8 amended: headings h1 through h4 render at their configured sizes 22,
18, 15, 13; h5 and h6 fall back to the default size 15 (the h3 size, not the
h4 size), and an h5 heading block is indeed emitted at font size 15. -/
theorem C8_heading_sizes_capped :
    headingSize (some "h1") = 22 ∧ headingSize (some "h2") = 18 ∧
    headingSize (some "h3") = 15 ∧ headingSize (some "h4") = 13 ∧
    headingSize (some "h5") = 15 ∧ headingSize (some "h6") = 15 ∧
    (15 : ℚ) ≠ 13 ∧
    (renderBlock cfg0 [] "" 0 ⟨.heading, "T", some "h5", false, false, none⟩ initState).units =
      [⟨0, 1, 115 / 2, 19, .headingLine 15, "T"⟩] := by
  with_unfolding_all decide

/-- C7: for positive native dimensions, the display box fits the content
width and the 400-point maximum height, and the aspect ratio is preserved
exactly (`w * h0 = h * w0`). -/
theorem C7_image_display_box (w0 h0 : ℚ) (hw : 0 < w0) (hh : 0 < h0) :
    (scaleBox (w0, h0)).1 ≤ CONTENT_WIDTH ∧ (scaleBox (w0, h0)).2 ≤ 400 ∧
    (scaleBox (w0, h0)).1 * h0 = (scaleBox (w0, h0)).2 * w0 := by
  have hcw : (0 : ℚ) < CONTENT_WIDTH := by
    unfold CONTENT_WIDTH PAGE_WIDTH MARGIN; norm_num
  unfold scaleBox
  dsimp only
  by_cases h1 : w0 > CONTENT_WIDTH
  · rw [if_pos h1]
    dsimp only
    by_cases h2 : h0 * CONTENT_WIDTH / w0 > 400
    · rw [if_pos h2]
      have hD : (0 : ℚ) < h0 * CONTENT_WIDTH / w0 := lt_trans (by norm_num) h2
      refine ⟨?_, le_refl _, ?_⟩
      · rw [div_le_iff₀ hD]
        nlinarith
      · field_simp
        ring
    · rw [if_neg h2]
      exact ⟨le_refl _, le_of_not_lt h2, by field_simp; ring⟩
  · rw [if_neg h1]
    dsimp only
    by_cases h2 : h0 > 400
    · rw [if_pos h2]
      refine ⟨?_, le_refl _, ?_⟩
      · have : w0 * 400 / h0 ≤ w0 := by
          rw [div_le_iff₀ (lt_trans (by norm_num) h2)]
          nlinarith
        exact le_trans this (le_of_not_lt h1)
      · field_simp
        ring
    · rw [if_neg h2]
      exact ⟨le_of_not_lt h1, le_of_not_lt h2, by ring⟩

/-- C7 witness: a 1000x1000 image is scaled to a 400x400 box, which fits
both constraints and preserves the square aspect ratio. -/
theorem C7_image_display_box_witness :
    (0 : ℚ) < 1000 ∧
    ((scaleBox ((1000 : ℚ), (1000 : ℚ))).1 ≤ CONTENT_WIDTH ∧
      (scaleBox ((1000 : ℚ), (1000 : ℚ))).2 ≤ 400 ∧
      (scaleBox ((1000 : ℚ), (1000 : ℚ))).1 * 1000 = (scaleBox ((1000 : ℚ), (1000 : ℚ))).2 * 1000) :=
  ⟨by norm_num, C7_image_display_box 1000 1000 (by norm_num) (by norm_num)⟩

/-- C5 counterexample: an archive stores the entry under the decoded name
`a b`; `readZipText` on `a%20b` still throws a missing-entry error naming
the path, even though the percent-decoded variant is present - so the
reader does not retry with URL-decoding before raising. -/
theorem C5_counterexample_no_decode_retry :
    readZipText [("a b", "x")] "a%20b" = .error (.missingEntry "a%20b") ∧
    decodeURIComponent "a%20b" = some "a b" ∧
    zipFile [("a b", "x")] "a b" = some "x" := by
  with_unfolding_all decide

/-- C5 amended: `readZipText` fails (with an error naming the path) exactly
when the exact-path lookup fails; it performs no percent-decoded retry.
The decoded fallback exists only at the chapter and image lookup sites of
the conversion, which skip rather than raise. -/
theorem C5_readZipText_exact_only (zip : List (String × String)) (p : String) :
    readZipText zip p = .error (.missingEntry p) ↔ zipFile zip p = none := by
  unfold readZipText
  cases h : zipFile zip p <;> simp

/-- C5 witness: the amended characterization applied to an empty archive. -/
theorem C5_readZipText_exact_only_witness :
    readZipText [] "q" = .error (.missingEntry "q") :=
  (C5_readZipText_exact_only [] "q").mpr (by with_unfolding_all decide)

/-- Keys of a string-valued association list track `List.lookup` success. -/
lemma lookup_isSome_iff_mem_keys (x : String) :
    ∀ (L : List (String × String)),
      ((List.lookup x L).isSome = true ↔ x ∈ L.map (fun e => e.1))
  | [] => by simp [List.lookup]
  | (k, v) :: L => by
    simp only [List.lookup, List.map_cons, List.mem_cons]
    cases hbe : x == k with
    | true =>
      have : x = k := by simpa using hbe
      simp [this]
    | false =>
      have hne : ¬ x = k := by simpa using hbe
      simp [hne, lookup_isSome_iff_mem_keys x L]

/-- C10: only the five recognized extensions map to an image format; an
image block whose resolved path has any other extension is skipped with the
state untouched even when the archive entry exists; and any image placement
at all requires a recognized extension. -/
theorem C10_unrecognized_extension_skipped :
    (∀ p : String, (getImageFormat p).isSome = true ↔
      String.mk ((splitDot (toLowerStr p).data).getLastD []) ∈
        ["jpg", "jpeg", "png", "gif", "webp"]) ∧
    (∀ (cfg : Cfg) (zip : List (String × String)) (dir : String) (si : Nat)
      (src : Option String) (s : LState) (data : String),
      imgLookup zip (resolveHref dir (src.getD "")) = some data →
      getImageFormat (resolveHref dir (src.getD "")) = none →
      renderImage cfg zip dir si src s = s) ∧
    (∀ (cfg : Cfg) (zip : List (String × String)) (dir : String) (si : Nat)
      (src : Option String) (s : LState),
      (renderImage cfg zip dir si src s).units ≠ s.units →
      (getImageFormat (resolveHref dir (src.getD ""))).isSome = true) := by
  refine ⟨?_, ?_, ?_⟩
  · intro p
    unfold getImageFormat
    dsimp only
    split
    · next he =>
      rw [he]
      simp only [Option.isSome_none]
      constructor
      · intro h; cases h
      · intro h; exact absurd h (by decide)
    · next he =>
      have h := lookup_isSome_iff_mem_keys
        (String.mk ((splitDot (toLowerStr p).data).getLastD []))
        [("jpg", "JPEG"), ("jpeg", "JPEG"), ("png", "PNG"), ("gif", "GIF"), ("webp", "WEBP")]
      simp only [List.map_cons, List.map_nil] at h
      exact h
  · intro cfg zip dir si src s data hl hf
    unfold renderImage
    dsimp only
    rw [hl, hf]
  · intro cfg zip dir si src s hne
    cases hf : getImageFormat (resolveHref dir (src.getD "")) with
    | some _ => rfl
    | none =>
      exfalso
      apply hne
      unfold renderImage
      dsimp only
      cases hl : imgLookup zip (resolveHref dir (src.getD "")) with
      | none => rfl
      | some d => dsimp only; rw [hf]

/-- C10 witness: a `.bmp` image whose archive entry exists is skipped with
the layout state untouched. -/
theorem C10_unrecognized_extension_skipped_witness :
    renderImage cfg0 [("d/pic.bmp", "DATA")] "d/" 0 (some "pic.bmp") initState = initState :=
  C10_unrecognized_extension_skipped.2.1 cfg0 [("d/pic.bmp", "DATA")] "d/" 0
    (some "pic.bmp") initState "DATA" (by with_unfolding_all decide)
    (by with_unfolding_all decide)

/-- C6: an image block whose archive lookup fails (under both the exact and
the percent-decoded path, or because decoding itself throws) is absorbed:
rendering it leaves the layout state untouched, and a block list containing
it renders exactly like the list with the block deleted - the surrounding
blocks of the chapter are unaffected. -/
theorem C6_failed_image_absorbed :
    (∀ (cfg : Cfg) (zip : List (String × String)) (dir : String) (si : Nat)
      (b : ContentBlock) (s : LState),
      b.type = .image →
      imgLookup zip (resolveHref dir (b.src.getD "")) = none →
      renderBlock cfg zip dir si b s = s) ∧
    (∀ (cfg : Cfg) (zip : List (String × String)) (dir : String) (si : Nat)
      (b : ContentBlock) (pre post : List ContentBlock) (s : LState),
      b.type = .image →
      imgLookup zip (resolveHref dir (b.src.getD "")) = none →
      renderBlocks cfg zip dir si (pre ++ b :: post) s =
        renderBlocks cfg zip dir si (pre ++ post) s) := by
  have part1 : ∀ (cfg : Cfg) (zip : List (String × String)) (dir : String) (si : Nat)
      (b : ContentBlock) (s : LState),
      b.type = .image →
      imgLookup zip (resolveHref dir (b.src.getD "")) = none →
      renderBlock cfg zip dir si b s = s := by
    intro cfg zip dir si b s htype hl
    unfold renderBlock
    rw [htype]
    unfold renderImage
    dsimp only
    rw [hl]
  refine ⟨part1, ?_⟩
  intro cfg zip dir si b pre post s htype hl
  induction pre generalizing s with
  | nil =>
    simp only [List.nil_append, renderBlocks]
    rw [part1 cfg zip dir si b s htype hl]
  | cons x pre ih =>
    simp only [List.cons_append, renderBlocks]
    exact ih _

/-- C6 witness: in a chapter whose image block references a path missing
from the archive, rendering with and without the image block coincide. -/
theorem C6_failed_image_absorbed_witness :
    renderBlocks cfg0 [] "" 0
      [⟨.paragraph, "Before", none, false, false, none⟩,
       ⟨.image, "", none, false, false, some "gone.png"⟩,
       ⟨.paragraph, "After", none, false, false, none⟩] initState =
    renderBlocks cfg0 [] "" 0
      [⟨.paragraph, "Before", none, false, false, none⟩,
       ⟨.paragraph, "After", none, false, false, none⟩] initState :=
  C6_failed_image_absorbed.2 cfg0 [] "" 0
    ⟨.image, "", none, false, false, some "gone.png"⟩
    [⟨.paragraph, "Before", none, false, false, none⟩]
    [⟨.paragraph, "After", none, false, false, none⟩] initState
    (by with_unfolding_all decide) (by with_unfolding_all decide)

/-- C3: in every successful conversion, each emitted unit (heading line,
text line, or image box) sits at a cursor position `y` with its reserved
height `H` satisfying `y + H ≤ page height - bottom margin`; the
page-break-on-overflow guard makes overflow impossible. -/
theorem C3_no_emitted_unit_overflows (cfg : Cfg) (zip : List (String × String))
    (r : ConvResult) (h : convertEpubToPdf cfg zip = .ok r) :
    ∀ u ∈ r.units, u.y + u.height ≤ PAGE_HEIGHT - MARGIN := by
  obtain ⟨sj, s', ⟨_, _, h3, _, _⟩, _, hu⟩ := convertEpubToPdf_inv cfg zip r h
  intro u hmem
  rw [hu] at hmem
  exact (h3 u hmem).2.2

/-- C3 witness: the scenario conversion emits a concrete unit, and the
theorem bounds it. -/

theorem C3_no_emitted_unit_overflows_witness :
    convertEpubToPdf cfg0 zipScenario = .ok scenarioResult ∧
    (⟨0, 1, 50, 16, .textLine "normal", "Second chapter text"⟩ : LUnit) ∈
      scenarioResult.units ∧
    (50 : ℚ) + 16 ≤ PAGE_HEIGHT - MARGIN :=
  ⟨by with_unfolding_all decide, by with_unfolding_all decide,
    C3_no_emitted_unit_overflows cfg0 zipScenario scenarioResult
      (by with_unfolding_all decide)
      ⟨0, 1, 50, 16, .textLine "normal", "Second chapter text"⟩
      (by with_unfolding_all decide)⟩

/-- C4: in every successful conversion, units of a later chapter always sit
on a strictly later page than units of any earlier chapter (the forced page
break before every chapter after the first); and on the specification's
scenario the spine-first chapter `ch2` starts on page 1 at the top margin
while `ch1` is forced onto page 2. -/
theorem C4_forced_chapter_page_breaks :
    (∀ (cfg : Cfg) (zip : List (String × String)) (r : ConvResult),
      convertEpubToPdf cfg zip = .ok r →
      ∀ u ∈ r.units, ∀ v ∈ r.units, u.spineIdx < v.spineIdx → u.page < v.page) ∧
    convertEpubToPdf cfg0 zipScenario = .ok scenarioResult := by
  constructor
  · intro cfg zip r h u hu v hv
    obtain ⟨sj, s', ⟨_, _, _, _, h5⟩, _, hru⟩ := convertEpubToPdf_inv cfg zip r h
    rw [hru] at hu hv
    exact h5 u hu v hv
  · with_unfolding_all decide

/-- C4 witness: the scenario's ch2 unit (spine index 0, page 1) and ch1 unit
(spine index 1, page 2) are strictly page-ordered by the theorem. -/
theorem C4_forced_chapter_page_breaks_witness : (1 : Nat) < 2 :=
  C4_forced_chapter_page_breaks.1 cfg0 zipScenario scenarioResult
    (by with_unfolding_all decide)
    ⟨0, 1, 50, 16, .textLine "normal", "Second chapter text"⟩
    (by with_unfolding_all decide)
    ⟨1, 2, 50, 16, .textLine "normal", "First chapter text"⟩
    (by with_unfolding_all decide) (by with_unfolding_all decide)

lemma chapterStep_pageCount_le (cfg : Cfg) (zip : List (String × String)) (dir : String)
    (si : Nat) (html : String) (s : LState) :
    s.pageCount ≤ (renderChapterStep cfg zip dir si html s).pageCount := by
  unfold renderChapterStep
  have h1 : s.pageCount ≤
      (if si > 0 then addNewPage s else { s with isFirstPage := false }).pageCount := by
    split
    · unfold addNewPage
      dsimp only
      split <;> omega
    · exact le_refl _
  exact le_trans h1 (renderBlocks_stepOK cfg zip dir si _ _).2.1

lemma renderSpine_safe_ok (cfg : Cfg) (zip : List (String × String)) (dir : String)
    (man : List (String × ManifestEntry)) :
    ∀ (spine : List SpineItem) (si : Nat) (s : LState),
      (∀ it ∈ spine, spineItemSafeB zip dir man it = true) →
      ∃ s', renderSpine cfg zip dir man spine si s = .ok s' ∧ s.pageCount ≤ s'.pageCount
  | [], _, s, _ => ⟨s, rfl, le_refl _⟩
  | item :: rest, si, s, hsafe => by
    have hsafeRest : ∀ it ∈ rest, spineItemSafeB zip dir man it = true :=
      fun it hit => hsafe it (List.mem_cons_of_mem _ hit)
    have hsafeItem := hsafe item (List.mem_cons_self _ _)
    simp only [renderSpine]
    cases hm : mapGet man item.id with
    | none =>
      exact renderSpine_safe_ok cfg zip dir man rest (si + 1) s hsafeRest
    | some entry =>
      dsimp only
      cases hz : zipFile zip (resolveHref dir entry.href) with
      | some html =>
        obtain ⟨s', h1, h2⟩ := renderSpine_safe_ok cfg zip dir man rest (si + 1)
          (renderChapterStep cfg zip dir si html s) hsafeRest
        exact ⟨s', h1, le_trans (chapterStep_pageCount_le cfg zip dir si html s) h2⟩
      | none =>
        cases hd : decodeURIComponent (resolveHref dir entry.href) with
        | none =>
          exfalso
          unfold spineItemSafeB at hsafeItem
          rw [hm] at hsafeItem
          simp [hz, hd] at hsafeItem
        | some d =>
          dsimp only
          cases hz2 : zipFile zip d with
          | some html =>
            obtain ⟨s', h1, h2⟩ := renderSpine_safe_ok cfg zip dir man rest (si + 1)
              (renderChapterStep cfg zip dir si html s) hsafeRest
            exact ⟨s', h1, le_trans (chapterStep_pageCount_le cfg zip dir si html s) h2⟩
          | none =>
            exact renderSpine_safe_ok cfg zip dir man rest (si + 1) s hsafeRest

/-- C1 counterexample: this archive has a readable container descriptor
naming `content.opf`, which is itself readable - yet the conversion throws
a `URIError`, because the single chapter's href `a%zzb.xhtml` misses the
exact lookup and its percent-decoding (outside any `try`/`catch`) fails. -/
theorem C1_counterexample_uriError :
    zipFile zipPctBad "META-INF/container.xml" = some containerPlain ∧
    parseRootfilePath containerPlain = some "content.opf" ∧
    (zipFile zipPctBad "content.opf").isSome = true ∧
    convertEpubToPdf cfg0 zipPctBad = .error .uriError := by
  with_unfolding_all decide

/-- C1 amended: when the container descriptor and the package document it
names are both readable, and additionally no spine item can reach the
uncaught percent-decoding of an unresolvable chapter href, the conversion
returns a result with page count at least 1 - including for a package
document with zero manifest items and an empty spine. -/
theorem C1_conversion_total_pageCount (cfg : Cfg) (zip : List (String × String))
    (cx p ox : String)
    (h1 : zipFile zip "META-INF/container.xml" = some cx)
    (h2 : parseRootfilePath cx = some p)
    (h3 : zipFile zip p = some ox)
    (h4 : ∀ it ∈ (parseOpf ox).2, spineItemSafeB zip (dirOf p) (parseOpf ox).1 it = true) :
    ∃ r, convertEpubToPdf cfg zip = .ok r ∧ 1 ≤ r.pageCount := by
  obtain ⟨s', hok, hpc⟩ := renderSpine_safe_ok cfg zip (dirOf p) (parseOpf ox).1
    (parseOpf ox).2 0 initState h4
  refine ⟨⟨s'.pageCount, s'.units⟩, ?_, hpc⟩
  unfold convertEpubToPdf readZipText
  rw [h1]
  dsimp only
  rw [h2]
  dsimp only
  rw [h3]
  dsimp only
  rw [hok]

/-- C1 witness: an archive with readable container and package document but
zero manifest items and an empty spine converts to a one-page document. -/
theorem C1_conversion_total_pageCount_witness :
    ∃ r, convertEpubToPdf cfg0 zipEmptyOpf = .ok r ∧ 1 ≤ r.pageCount :=
  C1_conversion_total_pageCount cfg0 zipEmptyOpf containerPlain "content.opf"
    "<package></package>"
    (by with_unfolding_all decide) (by with_unfolding_all decide)
    (by with_unfolding_all decide) (by with_unfolding_all decide)

lemma obsEq_refl (s : LState) : obsEq s s := ⟨rfl, rfl, rfl, rfl⟩

lemma ensureSpace_obs {s t : LState} (h : obsEq s t) (n : ℚ) :
    obsEq (ensureSpace n s) (ensureSpace n t) := by
  obtain ⟨hc, hp, hf, hu⟩ := h
  unfold ensureSpace
  by_cases hcond : t.cursorY + n > PAGE_HEIGHT - MARGIN
  · rw [if_pos (by rw [hc]; exact hcond), if_pos hcond]
    exact ⟨rfl, by dsimp only; rw [hp], hf, hu⟩
  · rw [if_neg (by rw [hc]; exact hcond), if_neg hcond]
    exact ⟨hc, hp, hf, hu⟩

lemma pushUnit_obs {s t : LState} (h : obsEq s t) (si sj : Nat) (k : UKind) (hh : ℚ)
    (c : String) : obsEq (pushUnit si k hh c s) (pushUnit sj k hh c t) := by
  obtain ⟨hc, hp, hf, hu⟩ := h
  refine ⟨hc, hp, hf, ?_⟩
  dsimp only [pushUnit]
  rw [List.map_append, List.map_append, hu]
  dsimp only [List.map_cons, List.map_nil, eraseSi]
  rw [hc, hp]

lemma setCursor_obs {s t : LState} (h : obsEq s t) (x y : ℚ) (hxy : x = y) :
    obsEq { s with cursorY := x } { t with cursorY := y } := by
  obtain ⟨_, hp, hf, hu⟩ := h
  exact ⟨hxy, hp, hf, hu⟩

lemma renderLines_obs (si sj : Nat) (lh : ℚ) (k : UKind) :
    ∀ (ls : List String) {s t : LState}, obsEq s t →
      obsEq (renderLines si lh k ls s) (renderLines sj lh k ls t)
  | [], _, _, h => h
  | l :: ls, s, t, h => by
    simp only [renderLines]
    have h2 := pushUnit_obs (ensureSpace_obs h lh) si sj k lh l
    exact renderLines_obs si sj lh k ls (setCursor_obs h2 _ _ (by rw [h2.1]))

lemma renderImage_obs (cfg : Cfg) (zip : List (String × String)) (dir : String)
    (si sj : Nat) (src : Option String) {s t : LState} (h : obsEq s t) :
    obsEq (renderImage cfg zip dir si src s) (renderImage cfg zip dir sj src t) := by
  unfold renderImage
  dsimp only
  cases hl : imgLookup zip (resolveHref dir (src.getD "")) with
  | none => exact h
  | some d =>
    cases hf : getImageFormat (resolveHref dir (src.getD "")) with
    | none => exact h
    | some ext =>
      have h2 := pushUnit_obs (ensureSpace_obs h ((scaleBox (cfg.dims d ext)).2 + 10)) si sj
        (.image (scaleBox (cfg.dims d ext)).1 (scaleBox (cfg.dims d ext)).2)
        ((scaleBox (cfg.dims d ext)).2 + 10) (resolveHref dir (src.getD ""))
      exact setCursor_obs h2 _ _ (by rw [h2.1])

lemma renderBlock_obs (cfg : Cfg) (zip : List (String × String)) (dir : String)
    (si sj : Nat) (b : ContentBlock) {s t : LState} (h : obsEq s t) :
    obsEq (renderBlock cfg zip dir si b s) (renderBlock cfg zip dir sj b t) := by
  unfold renderBlock
  cases b.type with
  | heading =>
    dsimp only
    have h1 := ensureSpace_obs h (headingSize b.tag + LINE_HEIGHT)
    have h2 := setCursor_obs h1 _ _ (by rw [h1.1] :
      (ensureSpace (headingSize b.tag + LINE_HEIGHT) s).cursorY + headingSize b.tag / 2 =
      (ensureSpace (headingSize b.tag + LINE_HEIGHT) t).cursorY + headingSize b.tag / 2)
    have h3 := renderLines_obs si sj (headingSize b.tag + 4)
      (.headingLine (headingSize b.tag)) (cfg.split (headingSize b.tag) b.text) h2
    exact setCursor_obs h3 _ _ (by rw [h3.1])
  | image => exact renderImage_obs cfg zip dir si sj b.src h
  | paragraph =>
    dsimp only
    by_cases hcond : jsTrim b.text = ""
    · rw [if_pos hcond, if_pos hcond]
      exact h
    · rw [if_neg hcond, if_neg hcond]
      have h1 := renderLines_obs si sj LINE_HEIGHT
        (.textLine (if b.bold ∧ b.italic then "bolditalic"
          else if b.bold then "bold" else if b.italic then "italic" else "normal"))
        (cfg.split FONT_SIZE b.text) h
      exact setCursor_obs h1 _ _ (by rw [h1.1])

lemma renderBlocks_obs (cfg : Cfg) (zip : List (String × String)) (dir : String)
    (si sj : Nat) : ∀ (bs : List ContentBlock) {s t : LState}, obsEq s t →
      obsEq (renderBlocks cfg zip dir si bs s) (renderBlocks cfg zip dir sj bs t)
  | [], _, _, h => h
  | b :: bs, _, _, h =>
    renderBlocks_obs cfg zip dir si sj bs (renderBlock_obs cfg zip dir si sj b h)

lemma addNewPage_obs {s t : LState} (h : obsEq s t) :
    obsEq (addNewPage s) (addNewPage t) := by
  obtain ⟨_, hp, hf, hu⟩ := h
  exact ⟨rfl, by dsimp only [addNewPage]; rw [hf, hp], rfl, hu⟩

lemma chapterStart_obs {s t : LState} (h : obsEq s t) (si sj : Nat)
    (H : si = sj ∨ (0 < si ∧ 0 < sj) ∨ (s.cursorY = MARGIN ∧ s.isFirstPage = true)) :
    obsEq (if si > 0 then addNewPage s else { s with isFirstPage := false })
      (if sj > 0 then addNewPage t else { t with isFirstPage := false }) := by
  obtain ⟨hc, hp, hf, hu⟩ := h
  by_cases h1 : si > 0 <;> by_cases h2 : sj > 0
  · rw [if_pos h1, if_pos h2]
    exact addNewPage_obs ⟨hc, hp, hf, hu⟩
  · rw [if_pos h1, if_neg h2]
    rcases H with rfl | ⟨_, hb⟩ | ⟨hcM, hfT⟩
    · exact absurd h1 h2
    · exact absurd hb h2
    · refine ⟨?_, ?_, rfl, hu⟩
      · dsimp only [addNewPage]
        rw [← hc, hcM]
      · dsimp only [addNewPage]
        rw [hfT]
        simp [hp]
  · rw [if_neg h1, if_pos h2]
    rcases H with rfl | ⟨ha, _⟩ | ⟨hcM, hfT⟩
    · exact absurd h2 h1
    · exact absurd ha h1
    · refine ⟨?_, ?_, rfl, hu⟩
      · dsimp only [addNewPage]
        rw [hcM]
      · dsimp only [addNewPage]
        rw [← hf, hfT]
        simp [hp]
  · rw [if_neg h1, if_neg h2]
    exact ⟨hc, hp, rfl, hu⟩

lemma renderSpine_obs (cfg : Cfg) (zip : List (String × String)) (dir : String)
    (man : List (String × ManifestEntry)) :
    ∀ (rest : List SpineItem) (si sj : Nat) (s t : LState), obsEq s t →
      (si = sj ∨ (0 < si ∧ 0 < sj) ∨ (s.cursorY = MARGIN ∧ s.isFirstPage = true)) →
      exceptObsEq (renderSpine cfg zip dir man rest si s)
        (renderSpine cfg zip dir man rest sj t)
  | [], _, _, _, _, h, _ => h
  | item :: rest, si, sj, s, t, h, H => by
    simp only [renderSpine]
    cases hm : mapGet man item.id with
    | none =>
      exact renderSpine_obs cfg zip dir man rest (si + 1) (sj + 1) s t h
        (Or.inr (Or.inl ⟨Nat.succ_pos si, Nat.succ_pos sj⟩))
    | some entry =>
      dsimp only
      cases hz : zipFile zip (resolveHref dir entry.href) with
      | some html =>
        have hstep : obsEq (renderChapterStep cfg zip dir si html s)
            (renderChapterStep cfg zip dir sj html t) := by
          unfold renderChapterStep
          exact renderBlocks_obs cfg zip dir si sj (parseHtmlToBlocks html)
            (chapterStart_obs h si sj H)
        exact renderSpine_obs cfg zip dir man rest (si + 1) (sj + 1) _ _ hstep
          (Or.inr (Or.inl ⟨Nat.succ_pos si, Nat.succ_pos sj⟩))
      | none =>
        cases hd : decodeURIComponent (resolveHref dir entry.href) with
        | none => exact rfl
        | some d =>
          dsimp only
          cases hz2 : zipFile zip d with
          | some html =>
            have hstep : obsEq (renderChapterStep cfg zip dir si html s)
                (renderChapterStep cfg zip dir sj html t) := by
              unfold renderChapterStep
              exact renderBlocks_obs cfg zip dir si sj (parseHtmlToBlocks html)
                (chapterStart_obs h si sj H)
            exact renderSpine_obs cfg zip dir man rest (si + 1) (sj + 1) _ _ hstep
              (Or.inr (Or.inl ⟨Nat.succ_pos si, Nat.succ_pos sj⟩))
          | none =>
            exact renderSpine_obs cfg zip dir man rest (si + 1) (sj + 1) s t h
              (Or.inr (Or.inl ⟨Nat.succ_pos si, Nat.succ_pos sj⟩))

lemma renderSpine_skip (cfg : Cfg) (zip : List (String × String)) (dir : String)
    (man : List (String × ManifestEntry)) (bad : SpineItem)
    (hbad : mapGet man bad.id = none) :
    ∀ (pre post : List SpineItem) (si : Nat) (s : LState),
      (0 < si ∨ (s.cursorY = MARGIN ∧ s.isFirstPage = true)) →
      exceptObsEq (renderSpine cfg zip dir man (pre ++ bad :: post) si s)
        (renderSpine cfg zip dir man (pre ++ post) si s)
  | [], post, si, s, H => by
    simp only [List.nil_append, renderSpine]
    rw [hbad]
    refine renderSpine_obs cfg zip dir man post (si + 1) si s s (obsEq_refl s) ?_
    rcases H with h | h
    · exact Or.inr (Or.inl ⟨Nat.succ_pos si, h⟩)
    · exact Or.inr (Or.inr h)
  | x :: pre, post, si, s, H => by
    simp only [List.cons_append, renderSpine]
    cases hm : mapGet man x.id with
    | none =>
      exact renderSpine_skip cfg zip dir man bad hbad pre post (si + 1) s
        (Or.inl (Nat.succ_pos si))
    | some entry =>
      dsimp only
      cases hz : zipFile zip (resolveHref dir entry.href) with
      | some html =>
        exact renderSpine_skip cfg zip dir man bad hbad pre post (si + 1) _
          (Or.inl (Nat.succ_pos si))
      | none =>
        cases hd : decodeURIComponent (resolveHref dir entry.href) with
        | none => exact rfl
        | some d =>
          dsimp only
          cases hz2 : zipFile zip d with
          | some html =>
            exact renderSpine_skip cfg zip dir man bad hbad pre post (si + 1) _
              (Or.inl (Nat.succ_pos si))
          | none =>
            exact renderSpine_skip cfg zip dir man bad hbad pre post (si + 1) s
              (Or.inl (Nat.succ_pos si))

/-- Membership in the spine fold preserves the placeholder href shape. -/
lemma spine_fold_href (man : List (String × ManifestEntry)) :
    ∀ (tags : List TagOcc) (acc : List SpineItem),
      (∀ it ∈ acc, it.href = ((mapGet man it.id).map (fun e => e.href)).getD "") →
      ∀ it ∈ tags.foldl (fun sp t =>
          match attr t.text "idref" with
          | some idref =>
            if idref ≠ "" then
              sp ++ [⟨idref, ((mapGet man idref).map (fun e => e.href)).getD ""⟩]
            else sp
          | none => sp) acc,
        it.href = ((mapGet man it.id).map (fun e => e.href)).getD ""
  | [], acc, hacc => hacc
  | t :: tags, acc, hacc => by
    simp only [List.foldl_cons]
    apply spine_fold_href man tags
    cases ha : attr t.text "idref" with
    | none => exact hacc
    | some idref =>
      dsimp only
      split
      · intro it hit
        rcases List.mem_append.mp hit with hit | hit
        · exact hacc it hit
        · simp only [List.mem_singleton] at hit
          subst hit
          rfl
      · exact hacc

/-- C2: emitted units appear in spine order (their spine indices are
monotone along the output); a spine idref with no manifest counterpart is
retained in the parsed spine with an empty-href placeholder; rendering a
spine with such a placeholder emits exactly what the spine without it
emits; and permuting the manifest declarations leaves the conversion output
unchanged on the scenario archive. -/
theorem C2_spine_order_and_placeholders :
    (∀ (cfg : Cfg) (zip : List (String × String)) (r : ConvResult),
      convertEpubToPdf cfg zip = .ok r →
      List.Pairwise (fun a b => a ≤ b) (r.units.map (fun u => u.spineIdx))) ∧
    (∀ (x : String) (it : SpineItem), it ∈ (parseOpf x).2 →
      mapGet (parseOpf x).1 it.id = none → it.href = "") ∧
    (∀ (cfg : Cfg) (zip : List (String × String)) (dir : String)
      (man : List (String × ManifestEntry)) (pre : List SpineItem) (bad : SpineItem)
      (post : List SpineItem), mapGet man bad.id = none →
      (renderSpine cfg zip dir man (pre ++ bad :: post) 0 initState).map
          (fun s => s.units.map eraseSi) =
        (renderSpine cfg zip dir man (pre ++ post) 0 initState).map
          (fun s => s.units.map eraseSi)) ∧
    convertEpubToPdf cfg0 zipScenario = convertEpubToPdf cfg0 zipScenarioSwapped := by
  refine ⟨?_, ?_, ?_, by with_unfolding_all decide⟩
  · intro cfg zip r h
    obtain ⟨sj, s', ⟨_, _, _, h4, _⟩, _, hru⟩ := convertEpubToPdf_inv cfg zip r h
    rw [hru]
    exact h4
  · intro x it hmem hnone
    unfold parseOpf at hmem hnone
    dsimp only at hmem hnone
    cases hs : spineSection x.data with
    | none =>
      rw [hs] at hmem
      dsimp only at hmem
      cases hmem
    | some inner =>
      rw [hs] at hmem
      dsimp only at hmem
      have := spine_fold_href _ _ [] (by intro it hit; cases hit) it hmem
      rw [this, hnone]
      rfl
  · intro cfg zip dir man pre bad post hbad
    have h := renderSpine_skip cfg zip dir man bad hbad pre post 0 initState
      (Or.inr ⟨rfl, rfl⟩)
    cases h1 : renderSpine cfg zip dir man (pre ++ bad :: post) 0 initState with
    | ok a =>
      cases h2 : renderSpine cfg zip dir man (pre ++ post) 0 initState with
      | ok b =>
        rw [h1, h2] at h
        have hab : obsEq a b := h
        simp only [Except.map]
        rw [hab.2.2.2]
      | error e =>
        rw [h1, h2] at h
        exact (h : False).elim
    | error e =>
      cases h2 : renderSpine cfg zip dir man (pre ++ post) 0 initState with
      | ok b =>
        rw [h1, h2] at h
        exact (h : False).elim
      | error f =>
        rw [h1, h2] at h
        have hef : e = f := h
        simp only [Except.map]
        rw [hef]

/-- C2 witness: the scenario conversion's unit spine indices are monotone. -/
theorem C2_spine_order_and_placeholders_witness :
    List.Pairwise (fun a b => a ≤ b) (scenarioResult.units.map (fun u => u.spineIdx)) :=
  C2_spine_order_and_placeholders.1 cfg0 zipScenario scenarioResult
    (by with_unfolding_all decide)

end EpubPdf
